import Mathlib

/-!
Shallow embedding of the algorithm hierarchy of `summaries` (file
`summaries/algorithm.py`): the nearest-neighbor ABC sampler, the subset-selection
search, and the static-compressor sampler, together with proofs of the
specification claims about them.

Modelling conventions:
* numpy arrays of floats are modelled with rationals (`ℚ`); a 1-D array is
  `Vec := List ℚ` and a 2-D array is `Mat := List Vec` (a list of rows).
* `np.atleast_2d` is modelled on an `NDArray` sum type of 1-D and 2-D arrays.
* `scipy.spatial.KDTree.query` is modelled by sorting the row indices of the
  reference table by distance to the query point (ties broken by the smaller
  index) and taking the first `k`; following scipy, when `k` exceeds the number
  `n` of rows the missing neighbours are reported with the out-of-range index
  `n`.  Distances are represented by the *squared* Euclidean distance, which
  induces exactly the same ordering and the same ties as the Euclidean distance.
* fancy indexing `train_params[indices]` is fallible: an out-of-range index
  raises (`AlgError.indexError`), which is how a query with `num_samples > n`
  surfaces as an error in `NearestNeighborAlgorithm.sample`.
* the fitted `sklearn` `StandardScaler` is modelled as an opaque row-wise
  function captured in the field `standard_scalar` (`none` when
  `standardize=False`); `transform` applies it to every row of a 2-D array and
  rejects 1-D arrays.
* python exceptions are modelled with `Except AlgError`.
-/

/-- A 1-D numpy array of floats, modelled with rationals. -/
abbrev Vec : Type := List ℚ

/-- A 2-D numpy array, as a list of rows. -/
abbrev Mat : Type := List Vec

/-- A numpy array that is either 1-D or 2-D (the argument of `sample`). -/
inductive NDArray : Type where
  | vec (v : Vec)
  | mat (m : Mat)
deriving DecidableEq

/-- The python exceptions raised by the embedded code. -/
inductive AlgError : Type where
  /-- `IndexError`: fancy indexing with an out-of-range index. -/
  | indexError
  /-- `ValueError`/`IndexError` raised on a 1-D array where a 2-D array is
  required (`StandardScaler.transform` or `data[:, mask]`). -/
  | shapeError
  /-- A failed `assert` statement. -/
  | assertionError (msg : String)
  /-- `NotImplementedError`. -/
  | notImplementedError (msg : String)
deriving DecidableEq

/-- Model of `np.atleast_2d`: promote a 1-D array to a single-row 2-D array. -/
def atleast_2d : NDArray → Mat
  | .vec v => [v]
  | .mat m => m

/-- Squared Euclidean distance between two feature vectors (order-equivalent to
the Euclidean distance used by the KD-tree). -/
def sqDist (x y : Vec) : ℚ :=
  (List.zipWith (fun a b => (a - b) ^ 2) x y).sum

/-- Distance from the query point `x` to row `i` of the reference table. -/
def distTo (train : Mat) (x : Vec) (i : Nat) : ℚ :=
  sqDist (train.getD i []) x

/-- The order in which `KDTree.query` reports neighbours: increasing distance to
the query point, ties broken by the smaller row index. -/
def queryOrder (train : Mat) (x : Vec) (i j : Nat) : Prop :=
  distTo train x i < distTo train x j ∨
    (distTo train x i = distTo train x j ∧ i ≤ j)

instance (train : Mat) (x : Vec) : DecidableRel (queryOrder train x) := fun i j => by
  unfold queryOrder; exact inferInstance

instance (train : Mat) (x : Vec) : IsTotal Nat (queryOrder train x) := by
  constructor
  intro i j
  rcases lt_trichotomy (distTo train x i) (distTo train x j) with h | h | h
  · exact Or.inl (Or.inl h)
  · rcases Nat.le_total i j with hij | hij
    · exact Or.inl (Or.inr ⟨h, hij⟩)
    · exact Or.inr (Or.inr ⟨h.symm, hij⟩)
  · exact Or.inr (Or.inl h)

instance (train : Mat) (x : Vec) : IsTrans Nat (queryOrder train x) := by
  constructor
  intro i j l hij hjl
  rcases hij with h | ⟨he, hi⟩
  · rcases hjl with h' | ⟨he', _⟩
    · exact Or.inl (h.trans h')
    · exact Or.inl (he' ▸ h)
  · rcases hjl with h' | ⟨he', hi'⟩
    · exact Or.inl (he ▸ h')
    · exact Or.inr ⟨he.trans he', hi.trans hi'⟩

/-- Model of `scipy.spatial.KDTree.query`: the indices of the `k` nearest rows of `train`
to the point `x`, in increasing order of distance.  As in scipy, when `k`
exceeds the number of rows the missing neighbours are reported with the
out-of-range index `train.length`.  This is the content of the query with the
neighbour axis always kept, i.e. the shape scipy returns for a *list* `k` or
an integer `k >= 2`; scipy's squeeze of the neighbour axis for the integer
`k == 1` (the result then has one scalar per query point) is modelled on top
of it by `NNAlg.sampleSqueezed`. -/
def KDTree.query (train : Mat) (x : Vec) (k : Nat) : List Nat :=
  (List.insertionSort (queryOrder train x) (List.range train.length) ++
    List.replicate (k - train.length) train.length).take k

/-- Model of `train_params[i]` for a single index: raises `IndexError` out of range. -/
def getRow (params : Mat) (i : Nat) : Except AlgError Vec :=
  if h : i < params.length then .ok params[i] else .error .indexError

/-- Fancy indexing `params[idx]` along the first axis. -/
def fancyIndex (params : Mat) (idx : List Nat) : Except AlgError Mat :=
  idx.mapM (getRow params)

/-- The state of a fitted ABC algorithm (`ABCAlgorithm.__init__`): the reference
table — with `train_data` already standardized at construction when
standardization is enabled — and the fitted scaler (`none` models
`standardize=False`). -/
structure NNAlg : Type where
  train_data : Mat
  train_params : Mat
  standard_scalar : Option (Vec → Vec)

/-- The auxiliary info returned by `NearestNeighborAlgorithm.sample`. -/
structure NNInfo : Type where
  indices : List (List Nat)
  distances : List (List ℚ)
deriving DecidableEq

/-- The first two lines of `NearestNeighborAlgorithm.sample`:
`data = np.atleast_2d(data)` followed by
`if self.standard_scalar: data = self.standard_scalar.transform(data)`. -/
def queryRows (alg : NNAlg) (data : NDArray) : Mat :=
  match alg.standard_scalar with
  | none => atleast_2d data
  | some f => (atleast_2d data).map f

/-- Model of `NearestNeighborAlgorithm.sample`: promote `data` to 2-D, standardize if
enabled (`queryRows`), query the KD-tree for the `num_samples` nearest
neighbours of each row, and fancy-index the parameter table with the resulting
indices.  The neighbour axis is always kept here (each observation gets a list
of `num_samples` neighbours); the rank of the arrays the source actually
returns — scipy squeezes that axis for the integer `num_samples == 1`, making
`train_params[indices]` 2-D rather than 3-D — is recovered by
`NNAlg.sampleSqueezed` below. -/
def NNAlg.sample (alg : NNAlg) (data : NDArray) (num_samples : Nat) :
    Except AlgError (List Mat × NNInfo) :=
  let d := queryRows alg data
  let indices := d.map (fun row => KDTree.query alg.train_data row num_samples)
  let distances := List.zipWith (fun row idx => idx.map (distTo alg.train_data row)) d indices
  match indices.mapM (fancyIndex alg.train_params) with
  | .error e => .error e
  | .ok y => .ok (y, ⟨indices, distances⟩)

/-- The sample batch produced by a successful `NNAlg.sample` call, as a total
function: for each query row, the parameter rows of its nearest neighbours. -/
def nnSamples (alg : NNAlg) (data : NDArray) (num_samples : Nat) : List Mat :=
  (queryRows alg data).map
    (fun row => (KDTree.query alg.train_data row num_samples).map
      (fun i => alg.train_params.getD i []))

/-- The neighbour indices of a successful `NNAlg.sample` call. -/
def nnIndices (alg : NNAlg) (data : NDArray) (num_samples : Nat) : List (List Nat) :=
  (queryRows alg data).map (fun row => KDTree.query alg.train_data row num_samples)

/-- The neighbour distances of a successful `NNAlg.sample` call. -/
def nnDistances (alg : NNAlg) (data : NDArray) (num_samples : Nat) : List (List ℚ) :=
  (queryRows alg data).map
    (fun row => (KDTree.query alg.train_data row num_samples).map (distTo alg.train_data row))

/-- The samples array `y = train_params[indices]` as the source actually
returns it: `scipy.spatial.KDTree.query` squeezes the neighbour axis when it
is called with the integer `k == 1`, so `indices` is then 1-D (one scalar
index per observation) and `y` is a 2-D `(m, q)` array; for `k >= 2` the
indices are `(m, k)` and `y` is a 3-D `(m, k, q)` array. -/
inductive SampleArray : Type where
  /-- A 2-D `(m, q)` array — `num_samples = 1`, neighbour axis squeezed. -/
  | two (m : Mat)
  /-- A 3-D `(m, num_samples, q)` array — `num_samples >= 2`. -/
  | three (s : List Mat)
deriving DecidableEq

/-- The number of dimensions (`numpy`'s `ndim`) of a returned samples array. -/
def SampleArray.ndim : SampleArray → Nat
  | .two _ => 2
  | .three _ => 3

/-- scipy's squeeze of the length-1 neighbour axis: turn the `(m, 1, q)` array
into the `(m, q)` array of each observation's single nearest parameter row. -/
def squeezeNeighborAxis (y : List Mat) : Mat :=
  y.map (fun s => s.headD [])

/-- The samples array of `NearestNeighborAlgorithm.sample` with the array rank
of the source: the computation of `NNAlg.sample`, with the neighbour axis
squeezed by scipy exactly when the query was made with the integer
`num_samples == 1`. -/
def NNAlg.sampleSqueezed (alg : NNAlg) (data : NDArray) (num_samples : Nat) :
    Except AlgError SampleArray :=
  match alg.sample data num_samples with
  | .error e => .error e
  | .ok (y, _) =>
    if num_samples = 1 then .ok (.two (squeezeNeighborAxis y))
    else .ok (.three y)

section QueryLemmas

variable (train : Mat) (x : Vec) (k : Nat)

lemma KDTree.query_length : (KDTree.query train x k).length = k := by
  unfold KDTree.query
  rw [List.length_take, List.length_append, List.length_insertionSort,
    List.length_range, List.length_replicate]
  omega

lemma KDTree.query_of_le (h : k ≤ train.length) :
    KDTree.query train x k =
      (List.insertionSort (queryOrder train x) (List.range train.length)).take k := by
  unfold KDTree.query
  rw [Nat.sub_eq_zero_of_le h, List.replicate_zero, List.append_nil]

lemma KDTree.query_mem_lt (h : k ≤ train.length) {i : Nat}
    (hi : i ∈ KDTree.query train x k) : i < train.length := by
  rw [KDTree.query_of_le train x k h] at hi
  have := List.take_subset k _ hi
  have := (List.perm_insertionSort (queryOrder train x) (List.range train.length)).mem_iff.mp this
  simpa using this

lemma KDTree.query_sorted (h : k ≤ train.length) :
    (KDTree.query train x k).Pairwise (queryOrder train x) := by
  rw [KDTree.query_of_le train x k h]
  exact ((List.sorted_insertionSort (queryOrder train x) (List.range train.length)).sublist
    (List.take_sublist _ _))

lemma KDTree.query_nearest (h : k ≤ train.length) {a b : Nat}
    (ha : a ∈ KDTree.query train x k) (hb : b < train.length)
    (hb' : b ∉ KDTree.query train x k) : queryOrder train x a b := by
  rw [KDTree.query_of_le train x k h] at ha hb'
  set s := List.insertionSort (queryOrder train x) (List.range train.length) with hs
  have hsort : s.Pairwise (queryOrder train x) :=
    List.sorted_insertionSort (queryOrder train x) (List.range train.length)
  have hbs : b ∈ s := by
    rw [hs, (List.perm_insertionSort (queryOrder train x) (List.range train.length)).mem_iff]
    simpa using hb
  have hsplit : s = s.take k ++ s.drop k := (List.take_append_drop k s).symm
  rw [hsplit] at hsort hbs
  rcases List.mem_append.mp hbs with hbt | hbd
  · exact absurd hbt hb'
  · exact (List.pairwise_append.mp hsort).2.2 a ha b hbd

end QueryLemmas

section FancyIndexLemmas

lemma getRow_of_lt (params : Mat) {i : Nat} (h : i < params.length) :
    getRow params i = .ok (params.getD i []) := by
  rw [getRow, dif_pos h, List.getD_eq_getElem _ _ h]

lemma getRow_of_ge (params : Mat) {i : Nat} (h : params.length ≤ i) :
    getRow params i = .error .indexError := by
  rw [getRow, dif_neg (by omega)]

lemma fancyIndex_ok (params : Mat) (idx : List Nat)
    (h : ∀ i ∈ idx, i < params.length) :
    fancyIndex params idx = .ok (idx.map (fun i => params.getD i [])) := by
  induction idx with
  | nil => rfl
  | cons a l ih =>
    have ha : a < params.length := h a (List.mem_cons_self a l)
    have hl : ∀ i ∈ l, i < params.length := fun i hi => h i (List.mem_cons_of_mem a hi)
    rw [fancyIndex] at ih ⊢
    rw [List.mapM_cons, getRow_of_lt params ha, ih hl]
    rfl

lemma zipWith_map_self {α β γ : Type} (f : α → β → γ) (g : α → β) (l : List α) :
    List.zipWith f l (l.map g) = l.map (fun a => f a (g a)) := by
  induction l with
  | nil => rfl
  | cons a l ih => simp [ih]

lemma fancyIndex_error (params : Mat) (idx : List Nat)
    (h : ∃ i ∈ idx, params.length ≤ i) :
    fancyIndex params idx = .error .indexError := by
  induction idx with
  | nil => simp at h
  | cons a l ih =>
    rw [fancyIndex, List.mapM_cons]
    by_cases ha : a < params.length
    · rw [getRow_of_lt params ha]
      have hl : ∃ i ∈ l, params.length ≤ i := by
        rcases h with ⟨i, hi, hle⟩
        rcases List.mem_cons.mp hi with rfl | hi'
        · omega
        · exact ⟨i, hi', hle⟩
      rw [fancyIndex] at ih
      rw [ih hl]
      rfl
    · rw [getRow_of_ge params (by omega)]
      rfl

end FancyIndexLemmas

section SampleLemmas

/-- On a successful call, `NNAlg.sample` returns exactly the total-function
descriptions `nnSamples`, `nnIndices`, `nnDistances`. -/
lemma NNAlg.sample_eq_ok (alg : NNAlg) (data : NDArray) (k : Nat)
    (hpar : alg.train_params.length = alg.train_data.length)
    (hk : k ≤ alg.train_data.length) :
    alg.sample data k =
      .ok (nnSamples alg data k, ⟨nnIndices alg data k, nnDistances alg data k⟩) := by
  rw [NNAlg.sample]
  have hmap :
      ((queryRows alg data).map (fun row => KDTree.query alg.train_data row k)).mapM
        (fancyIndex alg.train_params) = .ok (nnSamples alg data k) := by
    rw [nnSamples]
    induction queryRows alg data with
    | nil => rfl
    | cons r l ih =>
      rw [List.map_cons, List.map_cons, List.mapM_cons, fancyIndex_ok _ _
        (fun i hi => hpar ▸ KDTree.query_mem_lt alg.train_data r k hk hi), ih]
      rfl
  rw [hmap, nnIndices, nnDistances, zipWith_map_self]

/-- When `num_samples` exceeds the size of the reference table and there is at
least one observation, `NNAlg.sample` raises `IndexError` (scipy reports the
missing neighbours with the out-of-range index `n`, and fancy indexing
`train_params[indices]` then fails). -/
lemma NNAlg.sample_err (alg : NNAlg) (data : NDArray) (k : Nat)
    (hpar : alg.train_params.length = alg.train_data.length)
    (hk : alg.train_data.length < k) (hne : atleast_2d data ≠ []) :
    alg.sample data k = .error .indexError := by
  rw [NNAlg.sample]
  have hqne : queryRows alg data ≠ [] := by
    rw [queryRows]
    cases alg.standard_scalar with
    | none => exact hne
    | some f => simpa using hne
  have hmem : ∀ row : Vec, alg.train_data.length ∈ KDTree.query alg.train_data row k := by
    intro row
    rw [KDTree.query]
    have hlen : (List.insertionSort (queryOrder alg.train_data row)
        (List.range alg.train_data.length)).length = alg.train_data.length := by
      rw [List.length_insertionSort, List.length_range]
    rw [List.take_append_eq_append_take, List.mem_append]
    right
    rw [hlen, List.take_replicate, List.mem_replicate]
    exact ⟨by omega, rfl⟩
  obtain ⟨r, l, hrl⟩ := List.exists_cons_of_ne_nil hqne
  rw [hrl, List.map_cons, List.mapM_cons,
    fancyIndex_error _ _ ⟨alg.train_data.length, hmem r, by omega⟩]
  rfl

end SampleLemmas

/-!  ## Subset-selection search (`SubsetSelectionAlgorithm`) -/

/-- Model of `itertools.product(*[(False, True)] * p)`: all boolean tuples of length `p`
in lexicographic order with the leftmost position varying slowest and
`False` before `True`. -/
def boolTuples : Nat → List (List Bool)
  | 0 => [[]]
  | p + 1 => (boolTuples p).map (false :: ·) ++ (boolTuples p).map (true :: ·)

/-- The mask list of `SubsetSelectionAlgorithm.sample`:
`[mask for mask in it.product(*[(False, True)] * num_features) if any(mask)]`. -/
def subsetMasks (p : Nat) : List (List Bool) :=
  (boolTuples p).filter (fun mask => mask.any id)

/-- Model of `row[mask]`: keep the entries of `row` at the positions where `mask` is
`True`. -/
def maskRow (mask : List Bool) (row : Vec) : Vec :=
  (List.zip mask row).filterMap (fun bx => if bx.1 then some bx.2 else none)

/-- Model of `m[:, mask]`: restrict every row of a 2-D array to the masked columns. -/
def maskCols (mask : List Bool) (m : Mat) : Mat :=
  m.map (maskRow mask)

/-- The running per-observation best of the subset-selection loop: the slice of
`best_samples`, `best_mask` and `best_loss` belonging to one observation. -/
structure ObsBest : Type where
  samples : Mat
  mask : List Bool
  loss : ℚ
deriving DecidableEq

/-- The state of a fitted `SubsetSelectionAlgorithm`: the reference table (with
`train_data` standardized at construction when enabled), the fitted scaler, and
the pluggable loss strategy `evaluate_loss` (one scalar per observation). -/
structure SubsetAlg : Type where
  train_data : Mat
  train_params : Mat
  standard_scalar : Option (Vec → Vec)
  evaluate_loss : List Mat → List ℚ

/-- Model of `self.train_data.shape[1]`: the number of feature columns. -/
def SubsetAlg.num_features (alg : SubsetAlg) : Nat :=
  (alg.train_data.headD []).length

/-- The child sampler built for one mask:
`NearestNeighborAlgorithm(self.train_data[:, mask], self.train_params,
standardize=False)`. -/
def childAlgorithm (alg : SubsetAlg) (mask : List Bool) : NNAlg :=
  ⟨maskCols mask alg.train_data, alg.train_params, none⟩

/-- The first-mask branch `if best_loss is None:` of the loop body:
`best_loss = loss; best_samples = samples;
best_mask = np.repeat([mask], data.shape[0], axis=0)`. -/
def initBest (mask : List Bool) (samples : List Mat) (loss : List ℚ) : List ObsBest :=
  List.zipWith (fun s l => ⟨s, mask, l⟩) samples loss

/-- The `else:` branch of the loop body:
`idx, = np.where(loss < best_loss); best_samples[idx] = samples[idx];
best_mask[idx] = mask; best_loss = np.minimum(best_loss, loss)`. -/
def updateBest (mask : List Bool) (best : List ObsBest) (samples : List Mat)
    (loss : List ℚ) : List ObsBest :=
  List.zipWith
    (fun b sl =>
      if sl.2 < b.loss then ⟨sl.1, mask, sl.2⟩
      else ⟨b.samples, b.mask, min b.loss sl.2⟩)
    best (List.zip samples loss)

/-- Model of the `sklearn` `StandardScaler.transform`: row-wise on a 2-D array, raises on a
1-D array. -/
def scalerTransform (f : Vec → Vec) : NDArray → Except AlgError NDArray
  | .vec _ => .error .shapeError
  | .mat m => .ok (.mat (m.map f))

/-- Model of `data[:, mask]` inside the subset-selection loop: column
selection on a 2-D array; a 1-D `data` raises (numpy: too many indices). -/
def maskColsData (mask : List Bool) : NDArray → Except AlgError Mat
  | .vec _ => .error .shapeError
  | .mat m => .ok (maskCols mask m)

/-- The `for mask in masks:` loop of `SubsetSelectionAlgorithm.sample` over the
remaining masks, carrying the running best (`none` while `best_loss is None`)
and returning the final best together with the accumulated `losses` list.  An
error raised by `data[:, mask]` (1-D `data`) or by a child sampler aborts the
whole loop. -/
def subsetLoop (alg : SubsetAlg) (data : NDArray) (num_samples : Nat) :
    List (List Bool) → Option (List ObsBest) →
      Except AlgError (Option (List ObsBest) × List (List ℚ))
  | [], best => .ok (best, [])
  | mask :: rest, best =>
    match maskColsData mask data with
    | .error e => .error e
    | .ok data_subset =>
      match (childAlgorithm alg mask).sample (.mat data_subset) num_samples with
      | .error e => .error e
      | .ok (samples, _) =>
        let loss := alg.evaluate_loss samples
        let best' := match best with
          | none => some (initBest mask samples loss)
          | some b => some (updateBest mask b samples loss)
        match subsetLoop alg data num_samples rest best' with
        | .error e => .error e
        | .ok (bfin, ls) => .ok (bfin, loss :: ls)

/-- Model of `if self.standard_scalar: data = self.standard_scalar.transform(data)` at
the top of `SubsetSelectionAlgorithm.sample` (applied to a 2-D array). -/
def scaledRows (alg : SubsetAlg) (rows : Mat) : Mat :=
  match alg.standard_scalar with
  | none => rows
  | some f => rows.map f

/-- The return value of `SubsetSelectionAlgorithm.sample`: `best_samples` plus
the auxiliary info `best_mask`, `best_loss` (bundled per observation in
`best`), `masks` and `losses`.  `best` is `none` only when the mask list is
empty (`num_features = 0`), in which case python would return `None` values. -/
structure SubsetResult : Type where
  best : Option (List ObsBest)
  masks : List (List Bool)
  losses : List (List ℚ)
deriving DecidableEq

/-- Model of `SubsetSelectionAlgorithm.sample`: standardize `data` if the
scaler is enabled (`StandardScaler.transform` raises on a 1-D array), then run
the mask loop, in which `data[:, mask]` raises on a 1-D array.  There is no
`np.atleast_2d` promotion, so a 1-D `data` vector raises whenever
standardization is enabled or at least one mask is enumerated
(`num_features >= 1`); with no scaler and an empty mask list the loop never
touches `data` and the call returns with `best` still `None`. -/
def SubsetAlg.sample (alg : SubsetAlg) (data : NDArray) (num_samples : Nat) :
    Except AlgError SubsetResult :=
  match (match alg.standard_scalar with
          | none => Except.ok data
          | some f => scalerTransform f data) with
  | .error e => .error e
  | .ok data =>
    match subsetLoop alg data num_samples (subsetMasks alg.num_features) none with
    | .error e => .error e
    | .ok (best, losses) => .ok ⟨best, subsetMasks alg.num_features, losses⟩

/-- Model of `SubsetSelectionAlgorithm.get_compressor`: always raises
`NotImplementedError`. -/
def SubsetAlg.get_compressor (_ : SubsetAlg) (_ : Option NDArray) :
    Except AlgError (NDArray → NDArray) :=
  .error (.notImplementedError
    ("selecting a feature subset requires the construction of many spatial trees and is " ++
      "implemented as part of sampling; see best_mask in the auxiliary information"))

/-- The samples the child sampler of one mask produces (total description of
the successful case, per observation). -/
def childSamples (alg : SubsetAlg) (rows : Mat) (num_samples : Nat)
    (mask : List Bool) : List Mat :=
  nnSamples (childAlgorithm alg mask) (.mat (maskCols mask rows)) num_samples

/-- The per-observation loss vector the loop computes for one mask. -/
def maskLoss (alg : SubsetAlg) (rows : Mat) (num_samples : Nat)
    (mask : List Bool) : List ℚ :=
  alg.evaluate_loss (childSamples alg rows num_samples mask)

/-!  ## Static-compressor sampler (`StaticCompressorNearestNeighborAlgorithm`) -/

/-- The state of a fitted `StaticCompressorNearestNeighborAlgorithm`:
`train_data` holds `compressor(raw_train_data)`, standardized at construction
when enabled, and `compressor` is the static compressor captured at
construction. -/
structure StaticCompressorAlg : Type where
  train_data : Mat
  train_params : Mat
  standard_scalar : Option (Vec → Vec)
  compressor : NDArray → NDArray

/-- The underlying `NearestNeighborAlgorithm` state of a static-compressor
sampler (it inherits `train_data`, `train_params` and `standard_scalar`). -/
def StaticCompressorAlg.toNN (alg : StaticCompressorAlg) : NNAlg :=
  ⟨alg.train_data, alg.train_params, alg.standard_scalar⟩

/-- Model of `StaticCompressorNearestNeighborAlgorithm.get_compressor`: asserts
`data is None` and returns the captured compressor. -/
def StaticCompressorAlg.get_compressor (alg : StaticCompressorAlg)
    (data : Option NDArray) : Except AlgError (NDArray → NDArray) :=
  match data with
  | none => .ok alg.compressor
  | some _ => .error (.assertionError "data should be none for static compressors")

/-- The auxiliary info returned by
`StaticCompressorNearestNeighborAlgorithm.sample`: the inherited info plus
`info['compressed_data']`. -/
structure StaticInfo : Type where
  indices : List (List Nat)
  distances : List (List ℚ)
  compressed_data : NDArray
deriving DecidableEq

/-- Model of `StaticCompressorNearestNeighborAlgorithm.sample`:
`data = self.get_compressor(None)(data)`, then
`if self.standard_scalar: data = self.standard_scalar.transform(data)`, then
`samples, info = super().sample(data, num_samples, ...)` — note that
`super().sample` is `NearestNeighborAlgorithm.sample`, which applies
`self.standard_scalar.transform` a second time — and finally
`info['compressed_data'] = data`. -/
def StaticCompressorAlg.sample (alg : StaticCompressorAlg) (data : NDArray)
    (num_samples : Nat) : Except AlgError (List Mat × StaticInfo) :=
  match alg.get_compressor none with
  | .error e => .error e
  | .ok compressor =>
    let data := compressor data
    match (match alg.standard_scalar with
            | none => Except.ok data
            | some f => scalerTransform f data) with
    | .error e => .error e
    | .ok data =>
      match alg.toNN.sample data num_samples with
      | .error e => .error e
      | .ok (samples, info) => .ok (samples, ⟨info.indices, info.distances, data⟩)

/-- Modelled from the spec (§4.3 "Standardized + Compressed Nearest-Neighbor
Sampler"), for comparison with the source's `StaticCompressorAlg.sample`: apply
the compressor to `data`, apply standardization (if enabled) to the compressed
data *exactly once*, delegate to the distance-based sampler on that
representation (without re-standardizing), and add the compressed data to the
auxiliary info under the fixed key. -/
def staticSampleSpec (alg : StaticCompressorAlg) (data : NDArray)
    (num_samples : Nat) : Except AlgError (List Mat × StaticInfo) :=
  match alg.get_compressor none with
  | .error e => .error e
  | .ok compressor =>
    let data := compressor data
    match (match alg.standard_scalar with
            | none => Except.ok data
            | some f => scalerTransform f data) with
    | .error e => .error e
    | .ok data =>
      match NNAlg.sample ⟨alg.train_data, alg.train_params, none⟩ data num_samples with
      | .error e => .error e
      | .ok (samples, info) => .ok (samples, ⟨info.indices, info.distances, data⟩)

section MaskLemmas

lemma mem_boolTuples {x : List Bool} {p : Nat} : x ∈ boolTuples p ↔ x.length = p := by
  induction p generalizing x with
  | zero =>
    rw [boolTuples]
    simp [List.length_eq_zero]
  | succ p ih =>
    rw [boolTuples]
    constructor
    · intro hx
      rcases List.mem_append.mp hx with hx | hx <;>
        · obtain ⟨y, hy, rfl⟩ := List.mem_map.mp hx
          simp [ih.mp hy]
    · intro hx
      cases x with
      | nil => simp at hx
      | cons b y =>
        have hy : y ∈ boolTuples p := ih.mpr (by simpa using hx)
        cases b
        · exact List.mem_append.mpr (Or.inl (List.mem_map.mpr ⟨y, hy, rfl⟩))
        · exact List.mem_append.mpr (Or.inr (List.mem_map.mpr ⟨y, hy, rfl⟩))

lemma boolTuples_sorted (p : Nat) : (boolTuples p).Pairwise (List.Lex (· < ·)) := by
  induction p with
  | zero => simp [boolTuples]
  | succ p ih =>
    rw [boolTuples, List.pairwise_append]
    refine ⟨?_, ?_, ?_⟩
    · exact (List.pairwise_map.mpr (ih.imp fun h => List.Lex.cons h))
    · exact (List.pairwise_map.mpr (ih.imp fun h => List.Lex.cons h))
    · intro a ha b hb
      obtain ⟨y, _, rfl⟩ := List.mem_map.mp ha
      obtain ⟨z, _, rfl⟩ := List.mem_map.mp hb
      exact List.Lex.rel (by decide)

lemma lex_lt_irrefl : ∀ x : List Bool, ¬ List.Lex (· < ·) x x := by
  intro x
  induction x with
  | nil => intro h; cases h
  | cons b y ih =>
    intro h
    cases h with
    | cons h => exact ih h
    | rel h => exact lt_irrefl b h

lemma boolTuples_nodup (p : Nat) : (boolTuples p).Nodup :=
  (boolTuples_sorted p).imp fun h he => absurd (he ▸ h) (lex_lt_irrefl _)

lemma boolTuples_length (p : Nat) : (boolTuples p).length = 2 ^ p := by
  induction p with
  | zero => rfl
  | succ p ih =>
    rw [boolTuples, List.length_append, List.length_map, List.length_map, ih]
    ring

lemma mem_subsetMasks {mask : List Bool} {p : Nat} :
    mask ∈ subsetMasks p ↔ mask.length = p ∧ mask.any id = true := by
  rw [subsetMasks, List.mem_filter, mem_boolTuples]

lemma subsetMasks_sorted (p : Nat) : (subsetMasks p).Pairwise (List.Lex (· < ·)) :=
  (boolTuples_sorted p).sublist (List.filter_sublist _)

lemma subsetMasks_nodup (p : Nat) : (subsetMasks p).Nodup :=
  (boolTuples_nodup p).sublist (List.filter_sublist _)

lemma subsetMasks_length (p : Nat) : (subsetMasks p).length = 2 ^ p - 1 := by
  induction p with
  | zero => rfl
  | succ p ih =>
    rw [subsetMasks, boolTuples, List.filter_append, List.filter_map, List.filter_map,
      List.length_append, List.length_map, List.length_map]
    have h1 : ((fun mask => List.any mask id) ∘ (false :: ·)) =
        (fun mask => List.any mask id) := by
      funext y
      simp
    have h2 : ((fun mask => List.any mask id) ∘ (true :: ·)) = (fun _ => true) := by
      funext y
      simp
    rw [h1, h2, List.filter_true, boolTuples_length]
    rw [subsetMasks] at ih
    rw [ih]
    have hpow : 2 ^ (p + 1) = 2 ^ p + 2 ^ p := by ring
    have hone : 1 ≤ 2 ^ p := Nat.one_le_two_pow
    omega

lemma replicate_true_mem_subsetMasks {p : Nat} (hp : 0 < p) :
    List.replicate p true ∈ subsetMasks p := by
  rw [mem_subsetMasks, List.length_replicate]
  refine ⟨rfl, ?_⟩
  rw [List.any_eq_true]
  exact ⟨true, List.mem_replicate.mpr ⟨by omega, rfl⟩, rfl⟩

end MaskLemmas

/-!  ## The per-observation running best of the subset-selection loop -/

/-- Default `ObsBest` used with `List.getD`. -/
def dObs : ObsBest := ⟨[], [], 0⟩

section BestLemmas

lemma getD_append_left {α : Type} (l₁ l₂ : List α) (d : α) {j : Nat}
    (h : j < l₁.length) : (l₁ ++ l₂).getD j d = l₁.getD j d := by
  rw [List.getD_eq_getElem _ _ (by simp; omega), List.getD_eq_getElem _ _ h,
    List.getElem_append_left h]

lemma getD_append_last {α : Type} (l₁ : List α) (a : α) (d : α) :
    (l₁ ++ [a]).getD l₁.length d = a := by
  rw [List.getD_eq_getElem _ _ (by simp), List.getElem_append_right (by omega)]
  simp

lemma initBest_length (mask : List Bool) (samples : List Mat) (loss : List ℚ) :
    (initBest mask samples loss).length = min samples.length loss.length := by
  rw [initBest, List.length_zipWith]

lemma initBest_getD (mask : List Bool) (samples : List Mat) (loss : List ℚ)
    {i : Nat} (hi : i < (initBest mask samples loss).length) :
    (initBest mask samples loss).getD i dObs =
      ⟨samples.getD i [], mask, loss.getD i 0⟩ := by
  rw [initBest] at hi ⊢
  rw [List.getD_eq_getElem _ _ hi, List.getElem_zipWith]
  rw [List.length_zipWith] at hi
  rw [List.getD_eq_getElem _ _ (by omega), List.getD_eq_getElem _ _ (by omega)]

lemma updateBest_length (mask : List Bool) (best : List ObsBest) (samples : List Mat)
    (loss : List ℚ) :
    (updateBest mask best samples loss).length =
      min best.length (min samples.length loss.length) := by
  rw [updateBest, List.length_zipWith, List.length_zip]

lemma updateBest_getD (mask : List Bool) (best : List ObsBest) (samples : List Mat)
    (loss : List ℚ) {i : Nat} (hi : i < (updateBest mask best samples loss).length) :
    (updateBest mask best samples loss).getD i dObs =
      if loss.getD i 0 < (best.getD i dObs).loss then
        ⟨samples.getD i [], mask, loss.getD i 0⟩
      else
        ⟨(best.getD i dObs).samples, (best.getD i dObs).mask,
          min (best.getD i dObs).loss (loss.getD i 0)⟩ := by
  rw [updateBest] at hi ⊢
  rw [List.length_zipWith, List.length_zip] at hi
  rw [List.getD_eq_getElem _ _ (by rw [List.length_zipWith, List.length_zip]; omega)]
  rw [List.getElem_zipWith, List.getElem_zip]
  rw [List.getD_eq_getElem best dObs (by omega), List.getD_eq_getElem samples [] (by omega),
    List.getD_eq_getElem loss 0 (by omega)]

end BestLemmas

/-- The invariant of the subset-selection loop: after processing the masks in
`done`, the running best `b` holds, for every observation `i`, the samples,
mask and loss of the *first* mask in `done` attaining the minimal loss for
observation `i`. -/
def BestInv (alg : SubsetAlg) (rows : Mat) (num_samples : Nat)
    (done : List (List Bool)) (b : Option (List ObsBest)) : Prop :=
  match b with
  | none => done = []
  | some st =>
    done ≠ [] ∧ st.length = rows.length ∧
    ∀ i < st.length, ∃ j, j < done.length ∧
      (st.getD i dObs).mask = done.getD j [] ∧
      (st.getD i dObs).loss =
        (maskLoss alg rows num_samples (done.getD j [])).getD i 0 ∧
      (st.getD i dObs).samples =
        (childSamples alg rows num_samples (done.getD j [])).getD i [] ∧
      (∀ j' < done.length,
        (st.getD i dObs).loss ≤
          (maskLoss alg rows num_samples (done.getD j' [])).getD i 0) ∧
      (∀ j' < j,
        (st.getD i dObs).loss <
          (maskLoss alg rows num_samples (done.getD j' [])).getD i 0)

section LoopLemmas

lemma childSamples_length (alg : SubsetAlg) (rows : Mat) (k : Nat) (mask : List Bool) :
    (childSamples alg rows k mask).length = rows.length := by
  simp [childSamples, nnSamples, queryRows, childAlgorithm, atleast_2d, maskCols]

lemma maskLoss_length (alg : SubsetAlg) (rows : Mat) (k : Nat) (mask : List Bool)
    (hL : ∀ s, (alg.evaluate_loss s).length = s.length) :
    (maskLoss alg rows k mask).length = rows.length := by
  rw [maskLoss, hL, childSamples_length]

lemma childAlgorithm_sample_ok (alg : SubsetAlg) (rows : Mat) (k : Nat) (mask : List Bool)
    (hpar : alg.train_params.length = alg.train_data.length)
    (hk : k ≤ alg.train_data.length) :
    (childAlgorithm alg mask).sample (.mat (maskCols mask rows)) k =
      .ok (childSamples alg rows k mask,
        ⟨nnIndices (childAlgorithm alg mask) (.mat (maskCols mask rows)) k,
          nnDistances (childAlgorithm alg mask) (.mat (maskCols mask rows)) k⟩) := by
  have hlen : (childAlgorithm alg mask).train_data.length = alg.train_data.length := by
    rw [childAlgorithm, maskCols, List.length_map]
  rw [NNAlg.sample_eq_ok (childAlgorithm alg mask) (.mat (maskCols mask rows)) k
    (by rw [hlen]; exact hpar) (by rw [hlen]; exact hk)]
  rfl

lemma BestInv_init (alg : SubsetAlg) (rows : Mat) (k : Nat) (mask : List Bool)
    (done : List (List Bool)) (hdone : done = [])
    (hL : ∀ s, (alg.evaluate_loss s).length = s.length) :
    BestInv alg rows k (done ++ [mask])
      (some (initBest mask (childSamples alg rows k mask) (maskLoss alg rows k mask))) := by
  subst hdone
  have hS := childSamples_length alg rows k mask
  have hl := maskLoss_length alg rows k mask hL
  refine ⟨by simp, ?_, ?_⟩
  · rw [initBest_length]; omega
  · intro i hi
    rw [initBest_getD _ _ _ hi]
    refine ⟨0, by simp, rfl, rfl, rfl, ?_, ?_⟩
    · intro j' hj'
      have hj0 : j' = 0 := by simpa using hj'
      subst hj0
      exact le_rfl
    · intro j' hj'
      omega

end LoopLemmas

lemma BestInv_update (alg : SubsetAlg) (rows : Mat) (k : Nat) (mask : List Bool)
    (done : List (List Bool)) (st : List ObsBest)
    (hL : ∀ s, (alg.evaluate_loss s).length = s.length)
    (hinv : BestInv alg rows k done (some st)) :
    BestInv alg rows k (done ++ [mask])
      (some (updateBest mask st (childSamples alg rows k mask)
        (maskLoss alg rows k mask))) := by
  obtain ⟨hne, hlen, hforall⟩ := hinv
  have hS := childSamples_length alg rows k mask
  have hl := maskLoss_length alg rows k mask hL
  set S := childSamples alg rows k mask with hSdef
  set l := maskLoss alg rows k mask with hldef
  refine ⟨by simp, ?_, ?_⟩
  · rw [updateBest_length]; omega
  · intro i hi
    have hi' : i < st.length := by rw [updateBest_length] at hi; omega
    obtain ⟨j, hj, hmask, hloss, hsamp, hall, hfirst⟩ := hforall i hi'
    have hupd := updateBest_getD mask st S l hi
    by_cases hlt : l.getD i 0 < (st.getD i dObs).loss
    · rw [if_pos hlt] at hupd
      rw [hupd]
      refine ⟨done.length, by simp, ?_, ?_, ?_, ?_, ?_⟩
      · rw [getD_append_last]
      · rw [getD_append_last]
      · rw [getD_append_last]
      · intro j' hj'
        have hj2 : j' < done.length + 1 := by simpa using hj'
        rcases Nat.lt_or_ge j' done.length with hj'' | hj''
        · rw [getD_append_left _ _ _ hj'']
          calc l.getD i 0 ≤ (st.getD i dObs).loss := le_of_lt hlt
            _ ≤ (maskLoss alg rows k (done.getD j' [])).getD i 0 := hall j' hj''
        · have : j' = done.length := by omega
          subst this
          rw [getD_append_last]
      · intro j' hj'
        have hj'' : j' < done.length := by simpa using hj'
        rw [getD_append_left _ _ _ hj'']
        calc l.getD i 0 < (st.getD i dObs).loss := hlt
          _ ≤ (maskLoss alg rows k (done.getD j' [])).getD i 0 := hall j' hj''
    · rw [if_neg hlt] at hupd
      have hge : (st.getD i dObs).loss ≤ l.getD i 0 := not_lt.mp hlt
      rw [min_eq_left hge] at hupd
      have hupd' : (updateBest mask st S l).getD i dObs = st.getD i dObs := hupd
      rw [hupd']
      refine ⟨j, by simp; omega, ?_, ?_, ?_, ?_, ?_⟩
      · rw [getD_append_left _ _ _ hj]
        exact hmask
      · rw [getD_append_left _ _ _ hj]
        exact hloss
      · rw [getD_append_left _ _ _ hj]
        exact hsamp
      · intro j' hj'
        have hj2 : j' < done.length + 1 := by simpa using hj'
        rcases Nat.lt_or_ge j' done.length with hj'' | hj''
        · rw [getD_append_left _ _ _ hj'']
          exact hall j' hj''
        · have : j' = done.length := by omega
          subst this
          rw [getD_append_last]
          exact hge
      · intro j' hj'
        have hj'' : j' < done.length := by omega
        rw [getD_append_left _ _ _ hj'']
        exact hfirst j' hj'

lemma subsetLoop_run (alg : SubsetAlg) (rows : Mat) (k : Nat)
    (hpar : alg.train_params.length = alg.train_data.length)
    (hk : k ≤ alg.train_data.length)
    (hL : ∀ s, (alg.evaluate_loss s).length = s.length) :
    ∀ (ms done : List (List Bool)) (b : Option (List ObsBest)),
      BestInv alg rows k done b →
      ∃ b', subsetLoop alg (.mat rows) k ms b = .ok (b', ms.map (maskLoss alg rows k)) ∧
        BestInv alg rows k (done ++ ms) b' := by
  intro ms
  induction ms with
  | nil =>
    intro done b hinv
    exact ⟨b, rfl, by rw [List.append_nil]; exact hinv⟩
  | cons mask rest ih =>
    intro done b hinv
    have hchild := childAlgorithm_sample_ok alg rows k mask hpar hk
    cases b with
    | none =>
      have hstep := BestInv_init alg rows k mask done hinv hL
      obtain ⟨b', hrun, hinv'⟩ := ih (done ++ [mask]) _ hstep
      refine ⟨b', ?_, ?_⟩
      · rw [subsetLoop]
        simp only [maskColsData]
        rw [hchild]
        show (match subsetLoop alg (.mat rows) k rest
              (some (initBest mask (childSamples alg rows k mask)
                (maskLoss alg rows k mask))) with
            | Except.error e =>
                (Except.error e : Except AlgError (Option (List ObsBest) × List (List ℚ)))
            | Except.ok (bfin, ls) => Except.ok (bfin, maskLoss alg rows k mask :: ls)) = _
        rw [hrun]
        rfl
      · rw [List.append_assoc] at hinv'
        simpa using hinv'
    | some st =>
      have hstep := BestInv_update alg rows k mask done st hL hinv
      obtain ⟨b', hrun, hinv'⟩ := ih (done ++ [mask]) _ hstep
      refine ⟨b', ?_, ?_⟩
      · rw [subsetLoop]
        simp only [maskColsData]
        rw [hchild]
        show (match subsetLoop alg (.mat rows) k rest
              (some (updateBest mask st (childSamples alg rows k mask)
                (maskLoss alg rows k mask))) with
            | Except.error e =>
                (Except.error e : Except AlgError (Option (List ObsBest) × List (List ℚ)))
            | Except.ok (bfin, ls) => Except.ok (bfin, maskLoss alg rows k mask :: ls)) = _
        rw [hrun]
        rfl
      · rw [List.append_assoc] at hinv'
        simpa using hinv'

lemma subsetLoop_losses_length (alg : SubsetAlg) (data : NDArray) (k : Nat) :
    ∀ (ms : List (List Bool)) (b b' : Option (List ObsBest)) (ls : List (List ℚ)),
      subsetLoop alg data k ms b = .ok (b', ls) → ls.length = ms.length := by
  intro ms
  induction ms with
  | nil =>
    intro b b' ls h
    rw [subsetLoop] at h
    cases h
    rfl
  | cons mask rest ih =>
    intro b b' ls h
    rw [subsetLoop] at h
    cases hd : maskColsData mask data with
    | error e =>
      rw [hd] at h
      cases h
    | ok rows' =>
      rw [hd] at h
      simp only [] at h
      cases hc : (childAlgorithm alg mask).sample (.mat rows') k with
      | error e =>
        rw [hc] at h
        cases h
      | ok p =>
        rw [hc] at h
        obtain ⟨S, I⟩ := p
        cases b with
        | none =>
          replace h : (match subsetLoop alg data k rest
                (some (initBest mask S (alg.evaluate_loss S))) with
              | Except.error e =>
                  (Except.error e : Except AlgError (Option (List ObsBest) × List (List ℚ)))
              | Except.ok (bfin, ls') => Except.ok (bfin, alg.evaluate_loss S :: ls')) =
              Except.ok (b', ls) := h
          cases hr : subsetLoop alg data k rest
              (some (initBest mask S (alg.evaluate_loss S))) with
          | error e =>
            rw [hr] at h
            cases h
          | ok q =>
            rw [hr] at h
            obtain ⟨bfin, ls'⟩ := q
            cases h
            rw [List.length_cons, ih _ _ _ hr, List.length_cons]
        | some st =>
          replace h : (match subsetLoop alg data k rest
                (some (updateBest mask st S (alg.evaluate_loss S))) with
              | Except.error e =>
                  (Except.error e : Except AlgError (Option (List ObsBest) × List (List ℚ)))
              | Except.ok (bfin, ls') => Except.ok (bfin, alg.evaluate_loss S :: ls')) =
              Except.ok (b', ls) := h
          cases hr : subsetLoop alg data k rest
              (some (updateBest mask st S (alg.evaluate_loss S))) with
          | error e =>
            rw [hr] at h
            cases h
          | ok q =>
            rw [hr] at h
            obtain ⟨bfin, ls'⟩ := q
            cases h
            rw [List.length_cons, ih _ _ _ hr, List.length_cons]

/-- On a 2-D input the standardization step of `SubsetAlg.sample` always
succeeds and produces `scaledRows`. -/
lemma subsetTransform_mat (alg : SubsetAlg) (rows : Mat) :
    (match alg.standard_scalar with
      | none => Except.ok (NDArray.mat rows)
      | some f => scalerTransform f (NDArray.mat rows)) =
      .ok (.mat (scaledRows alg rows)) := by
  rw [scaledRows]
  cases alg.standard_scalar <;> rfl

lemma SubsetAlg.sample_ok_parts (alg : SubsetAlg) (rows0 : Mat) (k : Nat)
    (r : SubsetResult) (h : alg.sample (.mat rows0) k = .ok r) :
    r.masks = subsetMasks alg.num_features ∧ r.losses.length = r.masks.length := by
  rw [SubsetAlg.sample, subsetTransform_mat] at h
  simp only [] at h
  cases hloop : subsetLoop alg (.mat (scaledRows alg rows0)) k
      (subsetMasks alg.num_features) none with
  | error e =>
    rw [hloop] at h
    cases h
  | ok p =>
    rw [hloop] at h
    obtain ⟨b, ls⟩ := p
    cases h
    refine ⟨rfl, ?_⟩
    exact (subsetLoop_losses_length alg (.mat (scaledRows alg rows0)) k _ _ _ _ hloop).trans
      (by rw [subsetMasks_length])

/-- Full characterization of a successful `SubsetAlg.sample` run. -/
lemma SubsetAlg.sample_inv (alg : SubsetAlg) (rows0 : Mat) (k : Nat) (r : SubsetResult)
    (hpar : alg.train_params.length = alg.train_data.length)
    (hk : k ≤ alg.train_data.length)
    (hL : ∀ s, (alg.evaluate_loss s).length = s.length)
    (h : alg.sample (.mat rows0) k = .ok r) :
    r.masks = subsetMasks alg.num_features ∧
    r.losses = (subsetMasks alg.num_features).map
      (maskLoss alg (scaledRows alg rows0) k) ∧
    BestInv alg (scaledRows alg rows0) k (subsetMasks alg.num_features) r.best := by
  obtain ⟨b', hrun, hinv⟩ := subsetLoop_run alg (scaledRows alg rows0) k hpar hk hL
    (subsetMasks alg.num_features) [] none rfl
  rw [SubsetAlg.sample, subsetTransform_mat] at h
  simp only [] at h
  rw [hrun] at h
  cases h
  exact ⟨rfl, rfl, by simpa using hinv⟩

instance {e a : Type} [DecidableEq e] [DecidableEq a] : DecidableEq (Except e a) := fun x y =>
  match x, y with
  | .error u, .error v =>
    match decEq u v with
    | isTrue h => isTrue (by rw [h])
    | isFalse h => isFalse (by intro hxy; cases hxy; exact h rfl)
  | .error _, .ok _ => isFalse (by intro hxy; cases hxy)
  | .ok _, .error _ => isFalse (by intro hxy; cases hxy)
  | .ok u, .ok v =>
    match decEq u v with
    | isTrue h => isTrue (by rw [h])
    | isFalse h => isFalse (by intro hxy; cases hxy; exact h rfl)

/-!  ## Concrete instances used to exercise the theorems -/

/-- A one-row nearest-neighbor sampler. -/
def fixtureNN : NNAlg := ⟨[[0]], [[5]], none⟩

/-- A one-feature, one-row subset-selection sampler with the constant-zero
loss strategy. -/
def fixtureSub : SubsetAlg := ⟨[[0]], [[5]], none, fun s => s.map (fun _ => 0)⟩

/-- The reference table of the spec's concrete nearest-neighbor scenario. -/
def fixtureGrid : NNAlg :=
  ⟨[[0, 0], [1, 0], [0, 1], [1, 1], [2, 2]], [[0], [1], [2], [3], [4]], none⟩

/-!  ## Claim theorems -/

/-- C1: in `SubsetSelectionAlgorithm.sample`, for every mask processed after
the first, the running best is updated per observation independently and only
on strictly smaller loss: observation `i`'s best samples, best mask and best
loss are replaced exactly when the new loss is strictly less than the recorded
best loss for `i` (`loss < best_loss`, not `<=`); otherwise — in particular on
exact loss ties — the entry of the first-enumerated mask is kept unchanged. -/
theorem C1_update_strictly_smaller (mask : List Bool) (best : List ObsBest)
    (samples : List Mat) (loss : List ℚ) (i : Nat)
    (hS : samples.length = best.length) (hl : loss.length = best.length)
    (hi : i < best.length) :
    (loss.getD i 0 < (best.getD i dObs).loss →
      (updateBest mask best samples loss).getD i dObs =
        ⟨samples.getD i [], mask, loss.getD i 0⟩) ∧
    (¬ loss.getD i 0 < (best.getD i dObs).loss →
      (updateBest mask best samples loss).getD i dObs = best.getD i dObs) := by
  have hi' : i < (updateBest mask best samples loss).length := by
    rw [updateBest_length]; omega
  have h := updateBest_getD mask best samples loss hi'
  constructor
  · intro hlt
    rw [h, if_pos hlt]
  · intro hge
    rw [h, if_neg hge, min_eq_left (not_lt.mp hge)]

theorem C1_witness :
    (([(4 : ℚ)].getD 0 0 < (([⟨[[1]], [true], 5⟩] : List ObsBest).getD 0 dObs).loss →
      (updateBest [false] [⟨[[1]], [true], 5⟩] [[[3]]] [4]).getD 0 dObs =
        ⟨[[[3]]].getD 0 [], [false], [(4 : ℚ)].getD 0 0⟩) ∧
    (¬ [(4 : ℚ)].getD 0 0 < (([⟨[[1]], [true], 5⟩] : List ObsBest).getD 0 dObs).loss →
      (updateBest [false] [⟨[[1]], [true], 5⟩] [[[3]]] [4]).getD 0 dObs =
        ([⟨[[1]], [true], 5⟩] : List ObsBest).getD 0 dObs)) :=
  C1_update_strictly_smaller [false] [⟨[[1]], [true], 5⟩] [[[3]]] [4] 0 rfl rfl
    (by decide)

/-- C2: a successful `SubsetSelectionAlgorithm.sample` call evaluates exactly
the masks of `subsetMasks p` for `p` feature columns: there are `2 ^ p - 1` of
them, without duplicates, they are exactly the non-empty boolean vectors of
length `p`, they appear in strictly increasing lexicographic order
(`False < True`, leftmost position most significant), and one loss row is
recorded per evaluated mask. -/
theorem C2_mask_enumeration (alg : SubsetAlg) (rows0 : Mat) (k : Nat)
    (r : SubsetResult) (h : alg.sample (.mat rows0) k = .ok r) :
    r.masks = subsetMasks alg.num_features ∧
    r.masks.length = 2 ^ alg.num_features - 1 ∧
    r.masks.Nodup ∧
    (∀ mask, mask ∈ r.masks ↔ (mask.length = alg.num_features ∧ mask.any id = true)) ∧
    r.masks.Pairwise (List.Lex (· < ·)) ∧
    r.losses.length = r.masks.length := by
  obtain ⟨hmask, hlen⟩ := SubsetAlg.sample_ok_parts alg rows0 k r h
  rw [hmask]
  refine ⟨rfl, subsetMasks_length _, subsetMasks_nodup _,
    fun mask => mem_subsetMasks, subsetMasks_sorted _, ?_⟩
  rw [hlen, hmask]

theorem C2_witness :
    ([[true]] : List (List Bool)) = subsetMasks fixtureSub.num_features ∧
    ([[true]] : List (List Bool)).length = 2 ^ fixtureSub.num_features - 1 ∧
    ([[true]] : List (List Bool)).Nodup ∧
    (∀ mask, mask ∈ ([[true]] : List (List Bool)) ↔
      (mask.length = fixtureSub.num_features ∧ mask.any id = true)) ∧
    ([[true]] : List (List Bool)).Pairwise (List.Lex (· < ·)) ∧
    ([[0]] : List (List ℚ)).length = ([[true]] : List (List Bool)).length :=
  C2_mask_enumeration fixtureSub [[0]] 1 ⟨some [⟨[[5]], [true], 0⟩], [[true]], [[0]]⟩ rfl

/-- C7: `NearestNeighborAlgorithm.sample` with `num_samples` strictly greater
than the number of rows of the reference table raises an error for any
non-empty batch of observations (scipy reports the missing neighbours with the
out-of-range index `n`, and fancy-indexing `train_params` with it raises
`IndexError`) instead of silently returning fewer neighbours. -/
theorem C7_num_samples_exceeds_table (alg : NNAlg) (data : NDArray) (k : Nat)
    (hpar : alg.train_params.length = alg.train_data.length)
    (hk : alg.train_data.length < k) (hne : atleast_2d data ≠ []) :
    alg.sample data k = .error .indexError :=
  NNAlg.sample_err alg data k hpar hk hne

theorem C7_witness : fixtureNN.sample (.mat [[0]]) 2 = .error .indexError :=
  C7_num_samples_exceeds_table fixtureNN (.mat [[0]]) 2 rfl (by decide) (by decide)

/-- C8: `get_compressor` honors the compressor-capability contract: a
static-compressor sampler returns exactly the captured compressor when called
with `None` and fails the `data is None` assertion on every other argument,
while the subset-selection algorithm raises `NotImplementedError` for every
argument. -/
theorem C8_get_compressor_contract (s : StaticCompressorAlg) (x : NDArray)
    (sub : SubsetAlg) (d : Option NDArray) :
    s.get_compressor none = .ok s.compressor ∧
    s.get_compressor (some x) =
      .error (.assertionError "data should be none for static compressors") ∧
    sub.get_compressor d =
      .error (.notImplementedError
        ("selecting a feature subset requires the construction of many spatial trees and is " ++
          "implemented as part of sampling; see best_mask in the auxiliary information")) :=
  ⟨rfl, rfl, rfl⟩

/-- C9 counterexample: the claim "passing a single p-length data vector is
normalized internally to a (1, p) one-row batch and produces the same result
as passing that row as a 1-row matrix" fails for `SubsetSelectionAlgorithm.sample`:
on a concrete instance the 1-D vector raises while the 1-row matrix succeeds. -/
theorem C9_counterexample :
    fixtureSub.sample (.vec [0]) 1 ≠ fixtureSub.sample (.mat [[0]]) 1 := by
  intro h
  rw [show fixtureSub.sample (.vec [0]) 1 = .error .shapeError from rfl,
    show fixtureSub.sample (.mat [[0]]) 1 =
      .ok ⟨some [⟨[[5]], [true], 0⟩], [[true]], [[0]]⟩ from rfl] at h
  cases h

/-- C9 (amended): `NearestNeighborAlgorithm.sample` normalizes a single
p-length data vector with `np.atleast_2d` and returns exactly the result of
the corresponding 1-row matrix.  `SubsetSelectionAlgorithm.sample` performs no
such normalization: a 1-D data vector raises whenever standardization is
enabled (`StandardScaler.transform` rejects 1-D arrays) or at least one mask
is enumerated (`data[:, mask]` rejects 1-D arrays); only in the degenerate
case of no scaler and zero feature columns does the call return without
raising — the loop then never touches `data` and `best` is still `None`. -/
theorem C9_vector_normalization_amended :
    (∀ (alg : NNAlg) (v : Vec) (k : Nat),
      alg.sample (.vec v) k = alg.sample (.mat [v]) k) ∧
    (∀ (alg : SubsetAlg) (v : Vec) (k : Nat) (f : Vec → Vec),
      alg.standard_scalar = some f → alg.sample (.vec v) k = .error .shapeError) ∧
    (∀ (alg : SubsetAlg) (v : Vec) (k : Nat),
      alg.standard_scalar = none → 0 < alg.num_features →
        alg.sample (.vec v) k = .error .shapeError) ∧
    (∀ (alg : SubsetAlg) (v : Vec) (k : Nat),
      alg.standard_scalar = none → alg.num_features = 0 →
        alg.sample (.vec v) k = .ok ⟨none, [], []⟩) := by
  refine ⟨fun _ _ _ => rfl, ?_, ?_, ?_⟩
  · intro alg v k f hf
    rw [SubsetAlg.sample, hf]
    rfl
  · intro alg v k hs hp
    rw [SubsetAlg.sample, hs]
    obtain ⟨mask, rest, hmr⟩ : ∃ mask rest,
        subsetMasks alg.num_features = mask :: rest := by
      cases hsm : subsetMasks alg.num_features with
      | nil =>
        exfalso
        have hlen := subsetMasks_length alg.num_features
        rw [hsm] at hlen
        have h2 : 2 ≤ 2 ^ alg.num_features := by
          calc 2 = 2 ^ 1 := rfl
            _ ≤ 2 ^ alg.num_features := Nat.pow_le_pow_right (by omega) hp
        simp at hlen
        omega
      | cons m r => exact ⟨m, r, rfl⟩
    rw [hmr]
    rfl
  · intro alg v k hs hp
    rw [SubsetAlg.sample, hs, hp]
    rfl

theorem C9_amended_witness :
    fixtureSub.sample (.vec [0]) 1 = .error .shapeError ∧
    (⟨[[0]], [[5]], some (fun w => w), fun s => s.map (fun _ => 0)⟩ : SubsetAlg).sample
      (.vec [0]) 1 = .error .shapeError ∧
    (⟨[[], []], [[1], [2]], none, fun s => s.map (fun _ => 0)⟩ : SubsetAlg).sample
      (.vec []) 1 = .ok ⟨none, [], []⟩ :=
  ⟨C9_vector_normalization_amended.2.2.1 fixtureSub [0] 1 rfl (by decide),
   C9_vector_normalization_amended.2.1
     ⟨[[0]], [[5]], some (fun w => w), fun s => s.map (fun _ => 0)⟩ [0] 1
     (fun w => w) rfl,
   C9_vector_normalization_amended.2.2.2
     ⟨[[], []], [[1], [2]], none, fun s => s.map (fun _ => 0)⟩ [] 1 rfl rfl⟩

lemma getD_map_at {α β : Type} (f : α → β) (l : List α) (d : α) (e : β) {j : Nat}
    (hj : j < l.length) : (l.map f).getD j e = f (l.getD j d) := by
  rw [List.getD_eq_getElem _ _ (by simpa using hj), List.getElem_map,
    List.getD_eq_getElem _ _ hj]

/-- C3: subset-selection monotonicity — for every observation, the best loss
returned by `SubsetSelectionAlgorithm.sample` after processing all masks is at
most the loss that the loss strategy assigns to the samples the child sampler
produces for the full (all-`True`) feature mask, since that mask is one of the
enumerated candidates. -/
theorem C3_best_loss_le_full_mask (alg : SubsetAlg) (rows0 : Mat) (k : Nat)
    (r : SubsetResult) (bfin : List ObsBest) (i : Nat)
    (hpar : alg.train_params.length = alg.train_data.length)
    (hk : k ≤ alg.train_data.length)
    (hL : ∀ s, (alg.evaluate_loss s).length = s.length)
    (hp : 0 < alg.num_features)
    (h : alg.sample (.mat rows0) k = .ok r) (hb : r.best = some bfin)
    (hi : i < bfin.length) :
    (bfin.getD i dObs).loss ≤
      (maskLoss alg (scaledRows alg rows0) k
        (List.replicate alg.num_features true)).getD i 0 := by
  obtain ⟨-, -, hinv⟩ := SubsetAlg.sample_inv alg rows0 k r hpar hk hL h
  rw [hb] at hinv
  obtain ⟨-, -, hforall⟩ := hinv
  obtain ⟨j, hj, -, -, -, hall, -⟩ := hforall i hi
  obtain ⟨jf, hjf, hjeq⟩ := List.mem_iff_getElem.mp
    (replicate_true_mem_subsetMasks hp)
  have := hall jf hjf
  rwa [List.getD_eq_getElem _ _ hjf, hjeq] at this

theorem C3_witness :
    (([⟨[[5]], [true], 0⟩] : List ObsBest).getD 0 dObs).loss ≤
      (maskLoss fixtureSub (scaledRows fixtureSub [[0]]) 1
        (List.replicate fixtureSub.num_features true)).getD 0 0 :=
  C3_best_loss_le_full_mask fixtureSub [[0]] 1
    ⟨some [⟨[[5]], [true], 0⟩], [[true]], [[0]]⟩ [⟨[[5]], [true], 0⟩] 0
    rfl (by decide) (fun s => by simp [fixtureSub]) (by decide) rfl rfl (by decide)

/-- C10: consistency of the subset-selection outputs — for every observation
`i`, `best_mask[i]` is a non-empty mask from the enumerated mask list of the
returned info, and there is an index `j` into the enumeration such that
`best_mask[i]` is the `j`-th mask, `best_loss[i]` is entry `i` of the `j`-th
row of the returned losses matrix, `best_samples[i]` is the batch the child
nearest-neighbor sampler produced for observation `i` under exactly that mask,
the `j`-th loss row attains the minimum over all rows at entry `i`, and every
earlier row is strictly larger at entry `i` (so `j` is the first enumerated
minimizer). -/
theorem C10_best_consistency (alg : SubsetAlg) (rows0 : Mat) (k : Nat)
    (r : SubsetResult) (bfin : List ObsBest) (i : Nat)
    (hpar : alg.train_params.length = alg.train_data.length)
    (hk : k ≤ alg.train_data.length)
    (hL : ∀ s, (alg.evaluate_loss s).length = s.length)
    (h : alg.sample (.mat rows0) k = .ok r) (hb : r.best = some bfin)
    (hi : i < bfin.length) :
    ∃ j, j < r.masks.length ∧
      (bfin.getD i dObs).mask = r.masks.getD j [] ∧
      (bfin.getD i dObs).mask ∈ subsetMasks alg.num_features ∧
      (bfin.getD i dObs).mask.any id = true ∧
      (bfin.getD i dObs).loss = (r.losses.getD j []).getD i 0 ∧
      (bfin.getD i dObs).samples =
        (childSamples alg (scaledRows alg rows0) k (r.masks.getD j [])).getD i [] ∧
      (∀ j' < r.masks.length,
        (bfin.getD i dObs).loss ≤ (r.losses.getD j' []).getD i 0) ∧
      (∀ j' < j, (bfin.getD i dObs).loss < (r.losses.getD j' []).getD i 0) := by
  obtain ⟨hmasks, hlosses, hinv⟩ := SubsetAlg.sample_inv alg rows0 k r hpar hk hL h
  rw [hb] at hinv
  obtain ⟨-, -, hforall⟩ := hinv
  obtain ⟨j, hj, hmask, hloss, hsamp, hall, hfirst⟩ := hforall i hi
  have hrw : ∀ j', j' < (subsetMasks alg.num_features).length →
      (r.losses.getD j' []).getD i 0 =
        (maskLoss alg (scaledRows alg rows0) k
          ((subsetMasks alg.num_features).getD j' [])).getD i 0 := by
    intro j' hj'
    rw [hlosses, getD_map_at _ _ [] _ hj']
  refine ⟨j, ?_, ?_, ?_, ?_, ?_, ?_, ?_, ?_⟩
  · rw [hmasks]
    exact hj
  · rw [hmasks]
    exact hmask
  · rw [hmask, List.getD_eq_getElem _ _ hj]
    exact List.getElem_mem _
  · rw [hmask]
    have : (subsetMasks alg.num_features).getD j [] ∈ subsetMasks alg.num_features := by
      rw [List.getD_eq_getElem _ _ hj]
      exact List.getElem_mem _
    exact (mem_subsetMasks.mp this).2
  · rw [hrw j hj]
    exact hloss
  · rw [hmasks]
    exact hsamp
  · intro j' hj'
    rw [hmasks] at hj'
    rw [hrw j' hj']
    exact hall j' hj'
  · intro j' hj'
    rw [hrw j' (by omega)]
    exact hfirst j' hj'

theorem C10_witness :
    ∃ j, j < ([[true]] : List (List Bool)).length ∧
      (([⟨[[5]], [true], 0⟩] : List ObsBest).getD 0 dObs).mask =
        ([[true]] : List (List Bool)).getD j [] ∧
      (([⟨[[5]], [true], 0⟩] : List ObsBest).getD 0 dObs).mask ∈
        subsetMasks fixtureSub.num_features ∧
      (([⟨[[5]], [true], 0⟩] : List ObsBest).getD 0 dObs).mask.any id = true ∧
      (([⟨[[5]], [true], 0⟩] : List ObsBest).getD 0 dObs).loss =
        (([[0]] : List (List ℚ)).getD j []).getD 0 0 ∧
      (([⟨[[5]], [true], 0⟩] : List ObsBest).getD 0 dObs).samples =
        (childSamples fixtureSub (scaledRows fixtureSub [[0]]) 1
          (([[true]] : List (List Bool)).getD j [])).getD 0 [] ∧
      (∀ j' < ([[true]] : List (List Bool)).length,
        (([⟨[[5]], [true], 0⟩] : List ObsBest).getD 0 dObs).loss ≤
          (([[0]] : List (List ℚ)).getD j' []).getD 0 0) ∧
      (∀ j' < j,
        (([⟨[[5]], [true], 0⟩] : List ObsBest).getD 0 dObs).loss <
          (([[0]] : List (List ℚ)).getD j' []).getD 0 0) :=
  C10_best_consistency fixtureSub [[0]] 1
    ⟨some [⟨[[5]], [true], 0⟩], [[true]], [[0]]⟩ [⟨[[5]], [true], 0⟩] 0
    rfl (by decide) (fun s => by simp [fixtureSub]) rfl rfl (by decide)

lemma queryOrder_dist_le {train : Mat} {x : Vec} {i j : Nat}
    (h : queryOrder train x i j) : distTo train x i ≤ distTo train x j := by
  rcases h with h | ⟨h, -⟩
  · exact le_of_lt h
  · exact le_of_eq h

/-- C5: on a successful call, `NearestNeighborAlgorithm.sample` returns, for
every observation `t`, exactly the parameter rows of the reference entries
listed in `info.indices[t]`; those indices are the `num_samples` nearest rows
to the (standardized) observation — every reported row is at least as close as
every unreported row — they are ordered by increasing distance, and the
corresponding distances are reported in `info.distances[t]`.  In particular,
for the reference table `[[0,0],[1,0],[0,1],[1,1],[2,2]]` with parameters
`[0,1,2,3,4]` and no standardization, querying `[0.1, 0.1]` with
`num_samples = 1` returns parameter `0` (nearest row `[0,0]`). -/
theorem C5_nearest_neighbor_correct (alg : NNAlg) (data : NDArray) (k : Nat)
    (samples : List Mat) (info : NNInfo)
    (hpar : alg.train_params.length = alg.train_data.length)
    (hk : k ≤ alg.train_data.length)
    (h : alg.sample data k = .ok (samples, info)) :
    (∀ t, t < (queryRows alg data).length →
      samples.getD t [] =
        (info.indices.getD t []).map (fun i => alg.train_params.getD i []) ∧
      info.distances.getD t [] =
        (info.indices.getD t []).map
          (distTo alg.train_data ((queryRows alg data).getD t [])) ∧
      (info.indices.getD t []).Pairwise (fun a b =>
        distTo alg.train_data ((queryRows alg data).getD t []) a ≤
          distTo alg.train_data ((queryRows alg data).getD t []) b) ∧
      (∀ a ∈ info.indices.getD t [], ∀ b < alg.train_data.length,
        b ∉ info.indices.getD t [] →
          distTo alg.train_data ((queryRows alg data).getD t []) a ≤
            distTo alg.train_data ((queryRows alg data).getD t []) b)) ∧
    fixtureGrid.sample (.mat [[1/10, 1/10]]) 1 = .ok ([[[0]]], ⟨[[0]], [[1/50]]⟩) := by
  constructor
  · intro t ht
    rw [NNAlg.sample_eq_ok alg data k hpar hk] at h
    injection h with h'
    injection h' with hs hi
    subst hs
    subst hi
    have hidx : (nnIndices alg data k).getD t [] =
        KDTree.query alg.train_data ((queryRows alg data).getD t []) k := by
      rw [nnIndices, getD_map_at _ _ [] _ ht]
    refine ⟨?_, ?_, ?_, ?_⟩
    · rw [nnSamples, getD_map_at _ _ [] _ ht]
      show _ = ((nnIndices alg data k).getD t []).map _
      rw [hidx]
    · show (nnDistances alg data k).getD t [] = _
      rw [nnDistances, getD_map_at _ _ [] _ ht]
      show _ = ((nnIndices alg data k).getD t []).map _
      rw [hidx]
    · show ((nnIndices alg data k).getD t []).Pairwise _
      rw [hidx]
      exact (KDTree.query_sorted alg.train_data _ k hk).imp queryOrder_dist_le
    · show ∀ a ∈ (nnIndices alg data k).getD t [], _
      rw [hidx]
      intro a ha b hb hb'
      exact queryOrder_dist_le
        (KDTree.query_nearest alg.train_data _ k hk ha hb hb')
  · have h01 : queryOrder [[0,0],[1,0],[0,1],[1,1],[2,2]] [1/10, 1/10] 0 1 := by
      left
      norm_num [distTo, sqDist]
    have h12 : queryOrder [[0,0],[1,0],[0,1],[1,1],[2,2]] [1/10, 1/10] 1 2 := by
      right
      norm_num [distTo, sqDist]
    have h23 : queryOrder [[0,0],[1,0],[0,1],[1,1],[2,2]] [1/10, 1/10] 2 3 := by
      left
      norm_num [distTo, sqDist]
    have h34 : queryOrder [[0,0],[1,0],[0,1],[1,1],[2,2]] [1/10, 1/10] 3 4 := by
      left
      norm_num [distTo, sqDist]
    have hquery : KDTree.query [[0,0],[1,0],[0,1],[1,1],[2,2]] [1/10, 1/10] 1 = [0] := by
      rw [KDTree.query]
      rw [show (List.length ([[0,0],[1,0],[0,1],[1,1],[2,2]] : Mat)) = 5 from rfl]
      rw [show List.range 5 = [0, 1, 2, 3, 4] from rfl]
      rw [show List.insertionSort (queryOrder [[0,0],[1,0],[0,1],[1,1],[2,2]] [1/10, 1/10])
            [0, 1, 2, 3, 4] =
          List.orderedInsert (queryOrder [[0,0],[1,0],[0,1],[1,1],[2,2]] [1/10, 1/10]) 0
            (List.orderedInsert (queryOrder [[0,0],[1,0],[0,1],[1,1],[2,2]] [1/10, 1/10]) 1
              (List.orderedInsert (queryOrder [[0,0],[1,0],[0,1],[1,1],[2,2]] [1/10, 1/10]) 2
                (List.orderedInsert (queryOrder [[0,0],[1,0],[0,1],[1,1],[2,2]] [1/10, 1/10]) 3
                  [4]))) from rfl]
      rw [List.orderedInsert, if_pos h34]
      rw [List.orderedInsert, if_pos h23]
      rw [List.orderedInsert, if_pos h12]
      rw [List.orderedInsert, if_pos h01]
      rfl
    have hd0 : distTo [[0,0],[1,0],[0,1],[1,1],[2,2]] [1/10, 1/10] 0 = 1/50 := by
      norm_num [distTo, sqDist]
    rw [NNAlg.sample_eq_ok fixtureGrid (.mat [[1/10, 1/10]]) 1 rfl (by decide)]
    rw [nnSamples, nnIndices, nnDistances]
    rw [show queryRows fixtureGrid (.mat [[1/10, 1/10]]) = [[1/10, 1/10]] from rfl]
    rw [show fixtureGrid.train_data = [[0,0],[1,0],[0,1],[1,1],[2,2]] from rfl,
      show fixtureGrid.train_params = [[0],[1],[2],[3],[4]] from rfl]
    simp only [List.map_cons, List.map_nil, hquery, hd0]
    rfl

theorem C5_witness :
    (nnSamples fixtureNN (NDArray.mat [[0]]) 1).getD 0 [] =
      ((nnIndices fixtureNN (NDArray.mat [[0]]) 1).getD 0 []).map
        (fun i => fixtureNN.train_params.getD i []) ∧
    (nnDistances fixtureNN (NDArray.mat [[0]]) 1).getD 0 [] =
      ((nnIndices fixtureNN (NDArray.mat [[0]]) 1).getD 0 []).map
        (distTo fixtureNN.train_data ((queryRows fixtureNN (NDArray.mat [[0]])).getD 0 [])) ∧
    ((nnIndices fixtureNN (NDArray.mat [[0]]) 1).getD 0 []).Pairwise (fun a b =>
      distTo fixtureNN.train_data ((queryRows fixtureNN (NDArray.mat [[0]])).getD 0 []) a ≤
        distTo fixtureNN.train_data ((queryRows fixtureNN (NDArray.mat [[0]])).getD 0 []) b) ∧
    (∀ a ∈ (nnIndices fixtureNN (NDArray.mat [[0]]) 1).getD 0 [],
      ∀ b < fixtureNN.train_data.length,
        b ∉ (nnIndices fixtureNN (NDArray.mat [[0]]) 1).getD 0 [] →
          distTo fixtureNN.train_data ((queryRows fixtureNN (NDArray.mat [[0]])).getD 0 []) a ≤
            distTo fixtureNN.train_data ((queryRows fixtureNN (NDArray.mat [[0]])).getD 0 []) b) :=
  (C5_nearest_neighbor_correct fixtureNN (NDArray.mat [[0]]) 1
    (nnSamples fixtureNN (NDArray.mat [[0]]) 1)
    ⟨nnIndices fixtureNN (NDArray.mat [[0]]) 1, nnDistances fixtureNN (NDArray.mat [[0]]) 1⟩
    rfl (by decide)
    (NNAlg.sample_eq_ok fixtureNN (NDArray.mat [[0]]) 1 rfl (by decide))).1 0 (by decide)

/-- C6 counterexample: with `num_samples = 1` the source does *not* return a
3-D `(m, num_samples, q)` samples array — scipy's `KDTree.query` squeezes the
neighbour axis for the integer `k == 1`, so `train_params[indices]` is the 2-D
`(m, q)` array of each observation's single nearest parameter row.  On the
one-row fixture the returned array is the 2-D `[[5]]`, of rank 2, not rank 3. -/
theorem C6_counterexample :
    fixtureNN.sampleSqueezed (.mat [[0]]) 1 = .ok (.two [[5]]) ∧
    Except.map SampleArray.ndim (fixtureNN.sampleSqueezed (.mat [[0]]) 1) ≠ .ok 3 := by
  constructor
  · rfl
  · decide

/-- C6 (amended): for every valid query of `m` observations with
`num_samples ≤ n`, `NearestNeighborAlgorithm.sample` succeeds; for
`num_samples ≠ 1` the samples array is 3-D of shape `(m, num_samples, q)`,
while for `num_samples = 1` scipy squeezes the neighbour axis and the samples
array is 2-D of shape `(m, q)` (one nearest parameter row per observation),
where `q` is the number of parameter columns. -/
theorem C6_sample_shape_amended (alg : NNAlg) (data : NDArray) (k q : Nat)
    (hpar : alg.train_params.length = alg.train_data.length)
    (hq : ∀ row ∈ alg.train_params, row.length = q)
    (hk : k ≤ alg.train_data.length) :
    (k = 1 →
      alg.sampleSqueezed data 1 =
        .ok (.two (squeezeNeighborAxis (nnSamples alg data 1))) ∧
      (squeezeNeighborAxis (nnSamples alg data 1)).length = (atleast_2d data).length ∧
      (∀ row ∈ squeezeNeighborAxis (nnSamples alg data 1), row.length = q)) ∧
    (k ≠ 1 →
      alg.sampleSqueezed data k = .ok (.three (nnSamples alg data k)) ∧
      (nnSamples alg data k).length = (atleast_2d data).length ∧
      (∀ s ∈ nnSamples alg data k, s.length = k ∧ ∀ row ∈ s, row.length = q)) := by
  constructor
  · intro hk1
    subst hk1
    have hs := NNAlg.sample_eq_ok alg data 1 hpar hk
    refine ⟨?_, ?_, ?_⟩
    · rw [NNAlg.sampleSqueezed, hs]
      rfl
    · rw [squeezeNeighborAxis, List.length_map, nnSamples, List.length_map, queryRows]
      cases alg.standard_scalar with
      | none => rfl
      | some f => rw [List.length_map]
    · intro row hrow
      rw [squeezeNeighborAxis] at hrow
      obtain ⟨s, hs', rfl⟩ := List.mem_map.mp hrow
      rw [nnSamples] at hs'
      obtain ⟨x, hx, rfl⟩ := List.mem_map.mp hs'
      obtain ⟨i, hi⟩ := List.length_eq_one.mp (KDTree.query_length alg.train_data x 1)
      rw [hi]
      have hin : i < alg.train_data.length :=
        KDTree.query_mem_lt alg.train_data x 1 hk (by rw [hi]; exact List.mem_singleton.mpr rfl)
      show (alg.train_params.getD i []).length = q
      have hmem : alg.train_params.getD i [] ∈ alg.train_params := by
        rw [List.getD_eq_getElem _ _ (by omega)]
        exact List.getElem_mem _
      exact hq _ hmem
  · intro hk1
    have hs := NNAlg.sample_eq_ok alg data k hpar hk
    refine ⟨?_, ?_, ?_⟩
    · rw [NNAlg.sampleSqueezed, hs]
      simp only []
      rw [if_neg hk1]
    · rw [nnSamples, List.length_map, queryRows]
      cases alg.standard_scalar with
      | none => rfl
      | some f => rw [List.length_map]
    · intro s hs'
      obtain ⟨row, hrow, rfl⟩ := List.mem_map.mp hs'
      constructor
      · rw [List.length_map, KDTree.query_length]
      · intro prow hprow
        obtain ⟨idx, hidx, rfl⟩ := List.mem_map.mp hprow
        have hlt : idx < alg.train_data.length :=
          KDTree.query_mem_lt alg.train_data row k hk hidx
        have hmem : alg.train_params.getD idx [] ∈ alg.train_params := by
          rw [List.getD_eq_getElem _ _ (by omega)]
          exact List.getElem_mem _
        exact hq _ hmem

theorem C6_witness :
    fixtureNN.sampleSqueezed (NDArray.mat [[0]]) 1 =
      .ok (.two (squeezeNeighborAxis (nnSamples fixtureNN (NDArray.mat [[0]]) 1))) ∧
    (squeezeNeighborAxis (nnSamples fixtureNN (NDArray.mat [[0]]) 1)).length =
      (atleast_2d (NDArray.mat [[0]])).length ∧
    (∀ row ∈ squeezeNeighborAxis (nnSamples fixtureNN (NDArray.mat [[0]]) 1),
      row.length = 1) :=
  (C6_sample_shape_amended fixtureNN (NDArray.mat [[0]]) 1 1 rfl (by decide)
    (by decide)).1 rfl

/-- A concrete static-compressor sampler exhibiting the double-standardization
slip: the raw compressed training data `[[0],[4]]` was standardized at
construction (mean `2`, scale `2`), so `train_data = [[-1],[1]]` and the
fitted scaler maps `x` to `(x - 2) / 2`; the captured compressor is the
identity. -/
def fixtureStatic : StaticCompressorAlg :=
  ⟨[[-1], [1]], [[0], [10]], some (fun v => v.map (fun x => (x - 2) / 2)), fun d => d⟩

/-- C4 (code bug): `StaticCompressorNearestNeighborAlgorithm.sample` applies
the fitted standardization *twice* when it is enabled — once in its own body
and once more inside the delegated `NearestNeighborAlgorithm.sample` — rather
than exactly once as specified.  On the fixture, the query `[3]` is compressed
to `[3]`, standardized once to `[1/2]` (whose nearest standardized training row
is `[1]`, parameter `10`), but the code standardizes again to `[-3/4]` and
returns parameter `0`; the spec-modelled apply-once sampler
(`staticSampleSpec`) returns parameter `10`. -/
theorem C4_standardization_applied_twice :
    Except.map Prod.fst (fixtureStatic.sample (.mat [[3]]) 1) = .ok [[[0]]] ∧
    Except.map Prod.fst (staticSampleSpec fixtureStatic (.mat [[3]]) 1) = .ok [[[10]]] ∧
    Except.map Prod.fst (fixtureStatic.sample (.mat [[3]]) 1) ≠
      Except.map Prod.fst (staticSampleSpec fixtureStatic (.mat [[3]]) 1) := by
  have hfaith : Except.map Prod.fst (fixtureStatic.sample (.mat [[3]]) 1) = .ok [[[0]]] := by
    have hfq : queryOrder [[-1], [1]] [-(3/4 : ℚ)] 0 1 := by
      left
      norm_num [distTo, sqDist]
    have hquery : KDTree.query [[-1], [1]] [-(3/4 : ℚ)] 1 = [0] := by
      rw [KDTree.query]
      rw [show (List.length ([[-1], [1]] : Mat)) = 2 from rfl]
      rw [show List.range 2 = [0, 1] from rfl]
      rw [show List.insertionSort (queryOrder [[-1], [1]] [-(3/4 : ℚ)]) [0, 1] =
          List.orderedInsert (queryOrder [[-1], [1]] [-(3/4 : ℚ)]) 0 [1] from rfl]
      rw [List.orderedInsert, if_pos hfq]
      rfl
    rw [show fixtureStatic.sample (.mat [[3]]) 1 =
        (match fixtureStatic.toNN.sample (.mat [[((3:ℚ) - 2) / 2]]) 1 with
         | .error e => .error e
         | .ok (samples, info) =>
            .ok (samples, ⟨info.indices, info.distances, .mat [[((3:ℚ) - 2) / 2]]⟩)) from rfl]
    rw [NNAlg.sample_eq_ok fixtureStatic.toNN (.mat [[((3:ℚ) - 2) / 2]]) 1 rfl (by decide)]
    show Except.ok (nnSamples fixtureStatic.toNN (.mat [[((3:ℚ) - 2) / 2]]) 1) = _
    rw [nnSamples]
    rw [show queryRows fixtureStatic.toNN (.mat [[((3:ℚ) - 2) / 2]]) =
        [[(((3:ℚ) - 2) / 2 - 2) / 2]] from rfl]
    rw [show ((((3:ℚ) - 2) / 2 - 2) / 2) = -(3/4 : ℚ) from by norm_num]
    rw [show fixtureStatic.toNN.train_data = [[-1], [1]] from rfl]
    simp only [List.map_cons, List.map_nil, hquery]
    rfl
  have hspec : Except.map Prod.fst (staticSampleSpec fixtureStatic (.mat [[3]]) 1) =
      .ok [[[10]]] := by
    have hsq : ¬ queryOrder [[-1], [1]] [(1:ℚ)/2] 0 1 := by
      rw [queryOrder]
      norm_num [distTo, sqDist]
    have hquery : KDTree.query [[-1], [1]] [(1:ℚ)/2] 1 = [1] := by
      rw [KDTree.query]
      rw [show (List.length ([[-1], [1]] : Mat)) = 2 from rfl]
      rw [show List.range 2 = [0, 1] from rfl]
      rw [show List.insertionSort (queryOrder [[-1], [1]] [(1:ℚ)/2]) [0, 1] =
          List.orderedInsert (queryOrder [[-1], [1]] [(1:ℚ)/2]) 0 [1] from rfl]
      rw [List.orderedInsert, if_neg hsq]
      rfl
    rw [show staticSampleSpec fixtureStatic (.mat [[3]]) 1 =
        (match NNAlg.sample ⟨fixtureStatic.train_data, fixtureStatic.train_params, none⟩
            (.mat [[((3:ℚ) - 2) / 2]]) 1 with
         | .error e => .error e
         | .ok (samples, info) =>
            .ok (samples, ⟨info.indices, info.distances, .mat [[((3:ℚ) - 2) / 2]]⟩)) from rfl]
    rw [NNAlg.sample_eq_ok ⟨fixtureStatic.train_data, fixtureStatic.train_params, none⟩
      (.mat [[((3:ℚ) - 2) / 2]]) 1 rfl (by decide)]
    show Except.ok (nnSamples ⟨fixtureStatic.train_data, fixtureStatic.train_params, none⟩
      (.mat [[((3:ℚ) - 2) / 2]]) 1) = _
    rw [nnSamples]
    rw [show queryRows ⟨fixtureStatic.train_data, fixtureStatic.train_params, none⟩
        (.mat [[((3:ℚ) - 2) / 2]]) = [[((3:ℚ) - 2) / 2]] from rfl]
    rw [show (((3:ℚ) - 2) / 2) = (1/2 : ℚ) from by norm_num]
    rw [show (⟨fixtureStatic.train_data, fixtureStatic.train_params, none⟩ : NNAlg).train_data =
        [[-1], [1]] from rfl]
    simp only [List.map_cons, List.map_nil, hquery]
    rfl
  refine ⟨hfaith, hspec, ?_⟩
  intro h
  rw [hfaith, hspec] at h
  have : ([[([0] : Vec)]] : List Mat) = [[([10] : Vec)]] := by injection h
  simp at this
